import Mathlib

/-!
# Verification of the bilibili-analyzer live fan-out / aggregation pipeline

Shallow embedding, in Lean 4, of the core live pipeline of the repository:

* `src/backend/app/api/live.py` — `LiveRoomStats`, `LiveConnectionManager`
  (connect/disconnect lifecycle, broadcast with failure pruning, the stats
  throttle and the periodic broadcast loop), `get_room_ranking`;
* `src/backend/app/services/kafka_service.py` — `send_danmaku_to_kafka`,
  `send_gift_to_kafka`;
* `src/streaming/spark_streaming.py` — `write_to_redis`, the per-batch
  Redis materialisation of the live danmaku stream;
* `src/backend/app/services/redis_service.py` — `get_room_stats_history`.

Modelling conventions: Python floats become `ℚ`; `datetime` values become
`Nat` (milliseconds or seconds, as noted at each use); Python dict-based
registries keyed by room id become functions `Nat → Option _`; `round(x, 3)`
becomes rounding half-up on rationals (the claims never hit a half-way
value, where binary-float round-half-to-even could differ); wall-clock-only
fields (`start_time`, `updated_at`, key expiries) are dropped, since no
claim mentions them.  Concurrency is modelled at operation granularity:
each Python coroutine body is one atomic step.
-/

namespace BA

/-- Sentiment label, `live.py`: the string values "positive" / "neutral" /
"negative" attached to each scored danmaku. -/
inductive SentimentLabel where
  | positive
  | neutral
  | negative
deriving DecidableEq, Repr

/-- `live.py`, `_broadcast_danmaku`: the threshold labelling of a sentiment
score (`score >= 0.6 → positive`, `score <= 0.4 → negative`, else neutral). -/
def labelOf (score : ℚ) : SentimentLabel :=
  if 3/5 ≤ score then .positive
  else if score ≤ 2/5 then .negative
  else .neutral

/-- Python `round(x, 3)` on rationals, rounding half up (see the module
comment). -/
def round3 (q : ℚ) : ℚ := (⌊q * 1000 + 1/2⌋ : ℤ) / 1000

/-- `live.py`, dataclass `LiveRoomStats`: in-memory per-room rolling
statistics.  The `recent_danmakus` deque (maxlen 500) is a list with the
newest element last, as in the Python `deque.append`. -/
structure LiveRoomStats where
  total_danmaku : Nat := 0
  total_gift : Nat := 0
  sentiment_sum : ℚ := 0
  dist_positive : Nat := 0
  dist_neutral : Nat := 0
  dist_negative : Nat := 0
  recent_danmakus : List String := []
deriving DecidableEq, Repr

/-- The freshly constructed `LiveRoomStats()` (dataclass field defaults). -/
def LiveRoomStats.new : LiveRoomStats := {}

/-- `LiveRoomStats.avg_sentiment`: `0.5` when no danmaku has been counted,
otherwise `sentiment_sum / total_danmaku`. -/
def LiveRoomStats.avg_sentiment (st : LiveRoomStats) : ℚ :=
  if st.total_danmaku = 0 then 1/2
  else st.sentiment_sum / (st.total_danmaku : ℚ)

/-- `LiveRoomStats.add_danmaku`: count one danmaku, accumulate its score,
bump its label bucket, append the content to the bounded recent buffer. -/
def LiveRoomStats.add_danmaku (st : LiveRoomStats) (content : String)
    (score : ℚ) (label : SentimentLabel) : LiveRoomStats :=
  { st with
    total_danmaku := st.total_danmaku + 1
    sentiment_sum := st.sentiment_sum + score
    dist_positive := st.dist_positive + (if label = .positive then 1 else 0)
    dist_neutral := st.dist_neutral + (if label = .neutral then 1 else 0)
    dist_negative := st.dist_negative + (if label = .negative then 1 else 0)
    recent_danmakus :=
      let l := st.recent_danmakus ++ [content]
      l.drop (l.length - 500) }

/-- The `avg_sentiment` value as it appears in a `to_dict` stats snapshot
(`round(self.avg_sentiment, 3)`). -/
def LiveRoomStats.snapshot_avg (st : LiveRoomStats) : ℚ :=
  round3 st.avg_sentiment

end BA

/-- **C10.** The in-memory average-sentiment computation is total: whenever
`total_danmaku = 0` (e.g. a freshly created `LiveRoomStats`), `avg_sentiment`
is the neutral default `0.5` (and so is the rounded value sent in a stats
snapshot); when danmaku have been counted it is the accumulated mean.  So
every stats snapshot carries a defined `avg_sentiment`, with no division by
zero. -/
theorem C10_avg_sentiment_total (st : BA.LiveRoomStats) :
    (st.total_danmaku = 0 →
      st.avg_sentiment = 1/2 ∧ st.snapshot_avg = 1/2) ∧
    (st.total_danmaku ≠ 0 →
      st.avg_sentiment = st.sentiment_sum / (st.total_danmaku : ℚ)) ∧
    BA.LiveRoomStats.new.avg_sentiment = 1/2 := by
  refine ⟨fun h => ⟨?_, ?_⟩, fun h => ?_, ?_⟩
  · simp [BA.LiveRoomStats.avg_sentiment, h]
  · simp [BA.LiveRoomStats.snapshot_avg, BA.LiveRoomStats.avg_sentiment, h]
    norm_num [BA.round3]
  · simp [BA.LiveRoomStats.avg_sentiment, h]
  · simp [BA.LiveRoomStats.avg_sentiment, BA.LiveRoomStats.new]

/-- Witness for C10 at the fresh stats record: its `total_danmaku` is `0`
and its average sentiment is the neutral default. -/
theorem C10_witness :
    BA.LiveRoomStats.new.total_danmaku = 0 ∧
    BA.LiveRoomStats.new.avg_sentiment = 1/2 ∧
    BA.LiveRoomStats.new.snapshot_avg = 1/2 :=
  ⟨rfl, ((C10_avg_sentiment_total BA.LiveRoomStats.new).1 rfl).1,
    ((C10_avg_sentiment_total BA.LiveRoomStats.new).1 rfl).2⟩

namespace BA

/-- `live.py`, `LiveConnectionManager.__init__`: the per-room registries.
Each Python dict `room_id -> x` is a function `Nat → Option _`.  The
asyncio task handles carry no useful data, so presence in `_tasks` /
`_stats_tasks` is a `Bool` (true ⟺ the task exists and is not cancelled);
`_clients` stores a generation number drawn from `nextClientId`, so that
"the same client object" is expressible.  The throttle timestamps
(`_last_stats_broadcast`, `_last_wordcloud_broadcast`) are modelled
separately in the throttle section and omitted from this state. -/
structure MState where
  connections : Nat → Option (Finset Nat)
  clients : Nat → Option Nat
  connTasks : Nat → Bool
  statsTasks : Nat → Bool
  stats : Nat → Option LiveRoomStats
  nextClientId : Nat

/-- The manager right after `LiveConnectionManager()`: every registry empty. -/
def MState.init : MState :=
  { connections := fun _ => none
    clients := fun _ => none
    connTasks := fun _ => false
    statsTasks := fun _ => false
    stats := fun _ => none
    nextClientId := 0 }

/-- `LiveConnectionManager.connect` (one atomic step): add the websocket to
the room's subscriber set; if the room has no `BiliLiveClient` yet
(`room_id not in self._clients`), create fresh stats, a fresh client
(`_create_bili_client`, which also starts the connect task) and the
periodic stats-broadcast task.  Otherwise only the subscriber set grows. -/
def MState.connect (room ws : Nat) (s : MState) : MState :=
  let conns := insert ws ((s.connections room).getD ∅)
  if (s.clients room).isNone then
    { connections := Function.update s.connections room (some conns)
      clients := Function.update s.clients room (some s.nextClientId)
      connTasks := Function.update s.connTasks room true
      statsTasks := Function.update s.statsTasks room true
      stats := Function.update s.stats room (some LiveRoomStats.new)
      nextClientId := s.nextClientId + 1 }
  else
    { s with connections := Function.update s.connections room (some conns) }

/-- `LiveConnectionManager.disconnect` (one atomic step): discard the
websocket; if the room's subscriber set became empty, close the
`BiliLiveClient` (`_close_bili_client` cancels the connect task and drops
the client), delete the room's connection entry, cancel the stats task and
delete the stats and throttle entries. -/
def MState.disconnect (room ws : Nat) (s : MState) : MState :=
  match s.connections room with
  | none => s
  | some conns =>
    let conns' := conns.erase ws
    if conns' = ∅ then
      { connections := Function.update s.connections room none
        clients := Function.update s.clients room none
        connTasks := Function.update s.connTasks room false
        statsTasks := Function.update s.statsTasks room false
        stats := Function.update s.stats room none
        nextClientId := s.nextClientId }
    else
      { s with connections := Function.update s.connections room (some conns') }

/-- Number of registered subscribers of a room (`get_room_count`). -/
def MState.subCount (s : MState) (room : Nat) : Nat :=
  ((s.connections room).getD ∅).card

/-- Manager states reachable from the empty registry by `connect` /
`disconnect` steps. -/
inductive Reachable : MState → Prop where
  | init : Reachable MState.init
  | connect (room ws : Nat) {s : MState} :
      Reachable s → Reachable (MState.connect room ws s)
  | disconnect (room ws : Nat) {s : MState} :
      Reachable s → Reachable (MState.disconnect room ws s)

/-- Core invariant of the manager: in every reachable state, a room with at
least one subscriber has a `BiliLiveClient`. -/
theorem reachable_client_of_subscribers {s : MState} (h : Reachable s) :
    ∀ room : Nat, 1 ≤ s.subCount room → (s.clients room).isSome = true := by
  induction h with
  | init =>
    intro room h1
    simp [MState.init, MState.subCount] at h1
  | connect room' ws hre ih =>
    rename_i s
    intro room h1
    by_cases hr : room = room'
    · subst hr
      by_cases hc : (s.clients room).isNone
      · simp [MState.connect, hc, Function.update_same]
      · have hcl : (MState.connect room ws s).clients room = s.clients room := by
          simp [MState.connect, hc]
        rw [hcl]
        exact Option.ne_none_iff_isSome.mp
          (by simpa [Option.isNone_iff_eq_none] using hc)
    · have hconn : (MState.connect room' ws s).connections room
          = s.connections room := by
        by_cases hc : (s.clients room').isNone <;>
          simp [MState.connect, hc, Function.update_noteq hr]
      have hcl : (MState.connect room' ws s).clients room = s.clients room := by
        by_cases hc : (s.clients room').isNone <;>
          simp [MState.connect, hc, Function.update_noteq hr]
      rw [hcl]
      exact ih room (by rwa [MState.subCount, hconn] at h1)
  | disconnect room' ws hre ih =>
    rename_i s
    intro room h1
    rcases hc : s.connections room' with _ | conns
    · have hs : MState.disconnect room' ws s = s := by
        simp [MState.disconnect, hc]
      rw [hs] at h1 ⊢
      exact ih room h1
    · by_cases he : conns.erase ws = ∅
      · by_cases hr : room = room'
        · subst hr
          exfalso
          have h0 : (MState.disconnect room ws s).subCount room = 0 := by
            simp [MState.disconnect, hc, he, MState.subCount, Function.update_same]
          rw [h0] at h1
          omega
        · have hconn : (MState.disconnect room' ws s).connections room
              = s.connections room := by
            simp [MState.disconnect, hc, he, Function.update_noteq hr]
          have hcl : (MState.disconnect room' ws s).clients room
              = s.clients room := by
            simp [MState.disconnect, hc, he, Function.update_noteq hr]
          rw [hcl]
          exact ih room (by rwa [MState.subCount, hconn] at h1)
      · by_cases hr : room = room'
        · subst hr
          have hcl : (MState.disconnect room ws s).clients room
              = s.clients room := by
            simp [MState.disconnect, hc, he]
          rw [hcl]
          refine ih room ?_
          rw [MState.subCount, hc]
          have hne : conns ≠ ∅ := by
            intro h0
            exact he (by simp [h0])
          simpa [Finset.card_pos] using Finset.nonempty_iff_ne_empty.mpr hne
        · have hconn : (MState.disconnect room' ws s).connections room
              = s.connections room := by
            simp [MState.disconnect, hc, he, Function.update_noteq hr]
          have hcl : (MState.disconnect room' ws s).clients room
              = s.clients room := by
            simp [MState.disconnect, hc, he, Function.update_noteq hr]
          rw [hcl]
          exact ih room (by rwa [MState.subCount, hconn] at h1)

end BA

/-- **C3.** In every reachable manager state, a room with `k ≥ 1`
registered subscribers has a `BiliLiveClient` (and `_clients` being a map
keyed by room id, it holds at most one client per room); moreover a
further `connect` on such a room reuses the existing client: the whole
client registry is unchanged, so no second client is ever created. -/
theorem C3_one_client_per_room (s : BA.MState) (h : BA.Reachable s)
    (room : Nat) (hk : 1 ≤ s.subCount room) :
    (s.clients room).isSome = true ∧
    ∀ ws : Nat, (BA.MState.connect room ws s).clients = s.clients := by
  have hcl := BA.reachable_client_of_subscribers h room hk
  refine ⟨hcl, fun ws => ?_⟩
  have : ¬ (s.clients room).isNone := by
    simp only [Option.isNone_iff_eq_none]
    intro hnone
    rw [hnone] at hcl
    simp at hcl
  simp [BA.MState.connect, this]

/-- Witness for C3: the state reached by a single subscriber joining room 1
is reachable, has one subscriber, and has a client for room 1. -/
theorem C3_witness :
    1 ≤ (BA.MState.connect 1 7 BA.MState.init).subCount 1 ∧
    ((BA.MState.connect 1 7 BA.MState.init).clients 1).isSome = true := by
  have hr : BA.Reachable (BA.MState.connect 1 7 BA.MState.init) :=
    BA.Reachable.connect 1 7 BA.Reachable.init
  have hk : 1 ≤ (BA.MState.connect 1 7 BA.MState.init).subCount 1 := by
    simp [BA.MState.connect, BA.MState.init, BA.MState.subCount,
      Function.update_same]
  exact ⟨hk, (C3_one_client_per_room _ hr 1 hk).1⟩

/-- **C6.** When a room's subscriber set shrinks from `{ws}` to `∅` on
`disconnect`, the room's `BiliLiveClient`, its connect task and its
periodic stats task are all dropped and the room's `LiveRoomStats` entry
is deleted; and a `connect` on a room without a client installs a freshly
constructed `LiveRoomStats` — all counters zero and an empty recent-content
buffer — never a reused one. -/
theorem C6_teardown_and_fresh_stats (s : BA.MState) (room ws : Nat) :
    (s.connections room = some {ws} →
      (BA.MState.disconnect room ws s).clients room = none ∧
      (BA.MState.disconnect room ws s).connTasks room = false ∧
      (BA.MState.disconnect room ws s).statsTasks room = false ∧
      (BA.MState.disconnect room ws s).stats room = none ∧
      (BA.MState.disconnect room ws s).connections room = none) ∧
    (s.clients room = none →
      (BA.MState.connect room ws s).stats room = some BA.LiveRoomStats.new ∧
      BA.LiveRoomStats.new.total_danmaku = 0 ∧
      BA.LiveRoomStats.new.total_gift = 0 ∧
      BA.LiveRoomStats.new.sentiment_sum = 0 ∧
      BA.LiveRoomStats.new.dist_positive = 0 ∧
      BA.LiveRoomStats.new.dist_neutral = 0 ∧
      BA.LiveRoomStats.new.dist_negative = 0 ∧
      BA.LiveRoomStats.new.recent_danmakus = []) := by
  constructor
  · intro hconn
    have he : ({ws} : Finset Nat).erase ws = ∅ := by
      ext a
      simp [Finset.mem_erase]
    simp [BA.MState.disconnect, hconn, he, Function.update_same]
  · intro hcl
    have hn : (s.clients room).isNone := by simp [hcl]
    refine ⟨?_, rfl, rfl, rfl, rfl, rfl, rfl, rfl⟩
    simp [BA.MState.connect, hn, Function.update_same]

/-- Witness for C6: a state whose room 1 has exactly subscriber 5 and no
client satisfies both hypotheses; applying the theorem there yields the
teardown facts and the fresh-stats fact. -/
theorem C6_witness :
    ({ BA.MState.init with
        connections := Function.update BA.MState.init.connections 1 (some {5})
      } : BA.MState).connections 1 = some {5} ∧
    ({ BA.MState.init with
        connections := Function.update BA.MState.init.connections 1 (some {5})
      } : BA.MState).clients 1 = none ∧
    (BA.MState.disconnect 1 5
      { BA.MState.init with
        connections := Function.update BA.MState.init.connections 1 (some {5})
      }).stats 1 = none ∧
    (BA.MState.connect 1 5
      { BA.MState.init with
        connections := Function.update BA.MState.init.connections 1 (some {5})
      }).stats 1 = some BA.LiveRoomStats.new := by
  have h1 : ({ BA.MState.init with
      connections := Function.update BA.MState.init.connections 1 (some {5})
    } : BA.MState).connections 1 = some {5} := by
    simp [BA.MState.init, Function.update_same]
  have h2 : ({ BA.MState.init with
      connections := Function.update BA.MState.init.connections 1 (some {5})
    } : BA.MState).clients 1 = none := rfl
  have h := C6_teardown_and_fresh_stats
    { BA.MState.init with
      connections := Function.update BA.MState.init.connections 1 (some {5}) }
    1 5
  exact ⟨h1, h2, (h.1 h1).2.2.2.1, (h.2 h2).1⟩

namespace BA

/-- One entry of a room's subscriber set as seen by
`LiveConnectionManager._broadcast`: the websocket identity plus whether
`websocket.send_json` succeeds for this broadcast (in the source a failing
send raises and is caught per subscriber). -/
structure Subscriber where
  id : Nat
  sendOk : Bool
deriving DecidableEq, Repr

/-- The iteration inside `_broadcast`: visit the subscribers in order,
attempt delivery to each; a successful send is a delivery, a raising send
puts the subscriber into the `disconnected` set and the loop continues with
the next subscriber.  Returns `(delivered, disconnected)` in visit order. -/
def broadcastLoop : List Subscriber → List Subscriber × List Subscriber
  | [] => ([], [])
  | w :: rest =>
    let (delivered, disconnected) := broadcastLoop rest
    if w.sendOk then (w :: delivered, disconnected)
    else (delivered, w :: disconnected)

/-- The subscribers that `_broadcast` actually delivered the message to. -/
def broadcastDelivered (subs : List Subscriber) : List Subscriber :=
  (broadcastLoop subs).1

/-- The room's subscriber set after `_broadcast`: the post-iteration
`discard` of every member of the `disconnected` set. -/
def broadcastRemaining (subs : List Subscriber) : List Subscriber :=
  subs.filter (fun w => decide (w ∉ (broadcastLoop subs).2))

theorem broadcastLoop_fst (subs : List Subscriber) :
    (broadcastLoop subs).1 = subs.filter (fun w => w.sendOk) := by
  induction subs with
  | nil => rfl
  | cons w rest ih =>
    by_cases hw : w.sendOk <;> simp [broadcastLoop, List.filter, hw, ih]

theorem broadcastLoop_snd (subs : List Subscriber) :
    (broadcastLoop subs).2 = subs.filter (fun w => !w.sendOk) := by
  induction subs with
  | nil => rfl
  | cons w rest ih =>
    by_cases hw : w.sendOk <;> simp [broadcastLoop, List.filter, hw, ih]

end BA

/-- **C5.** In a `_broadcast` call: the delivered subscribers are exactly
those whose send succeeds — a failure earlier in the iteration does not
prevent delivery to any later subscriber; after the iteration, every
subscriber whose delivery failed (and no other) has been removed from the
room's set; and the call is total — each failure is absorbed per
subscriber, so no error reaches the room or the other subscribers. -/
theorem C5_broadcast_prunes_failed (subs : List BA.Subscriber) :
    BA.broadcastDelivered subs = subs.filter (fun w => w.sendOk) ∧
    BA.broadcastRemaining subs = subs.filter (fun w => w.sendOk) ∧
    (BA.broadcastLoop subs).2 = subs.filter (fun w => !w.sendOk) := by
  refine ⟨BA.broadcastLoop_fst subs, ?_, BA.broadcastLoop_snd subs⟩
  rw [BA.broadcastRemaining, BA.broadcastLoop_snd]
  apply List.filter_congr
  intro w hw
  by_cases hok : w.sendOk
  · simp [List.mem_filter, hok]
  · simp [List.mem_filter, hw, hok]

namespace BA

/-- `_stats_push_interval` (1.0 s) in milliseconds. -/
def statsInterval : Nat := 1000

/-- The event-path throttle of `_broadcast_danmaku`, over a room's danmaku
arrival times (ms): a "stats" broadcast is emitted at an arrival time `t`
iff at least `statsInterval` elapsed since the `last` event-path stats
broadcast (`none` models the `datetime.min` initialisation, which always
passes the check); an emission updates `last`.  Returns the emission
times. -/
def throttleTimes : Option Nat → List Nat → List Nat
  | _, [] => []
  | none, t :: ts => t :: throttleTimes (some t) ts
  | some last, t :: ts =>
    if statsInterval ≤ t - last then t :: throttleTimes (some t) ts
    else throttleTimes (some last) ts

/-- Event-path stats-broadcast times of a fresh session, from the danmaku
arrival times. -/
def eventStatsTimes (events : List Nat) : List Nat :=
  throttleTimes none events

/-- The `_periodic_broadcast` loop: one unconditional "stats" broadcast per
`asyncio.sleep(1)` tick, i.e. at 1000 ms, 2000 ms, …, `1000*k` ms for a
session observed over `k` ticks (idealised exact timer).  The loop never
consults or updates `_last_stats_broadcast`. -/
def timerTicks (k : Nat) : List Nat :=
  (List.range k).map (fun i => statsInterval * (i + 1))

/-- How many of the given broadcast times fall in the half-open 1-second
window `[a, a + statsInterval)`. -/
def countInWindow (times : List Nat) (a : Nat) : Nat :=
  times.countP (fun t => decide (a ≤ t ∧ t < a + statsInterval))

/-- Total number of "stats" broadcasts to a room in the window
`[a, a+1s)`: event-path emissions plus periodic-timer emissions. -/
def statsBroadcastCount (events : List Nat) (k a : Nat) : Nat :=
  countInWindow (eventStatsTimes events) a + countInWindow (timerTicks k) a

theorem throttleTimes_sep (last : Nat) (events : List Nat)
    (hs : List.Pairwise (· ≤ ·) events) :
    (∀ b ∈ throttleTimes (some last) events, last + statsInterval ≤ b) ∧
    List.Pairwise (fun x y => x + statsInterval ≤ y)
      (throttleTimes (some last) events) := by
  induction events generalizing last with
  | nil =>
    constructor
    · intro b hb
      simp [throttleTimes] at hb
    · exact List.Pairwise.nil
  | cons t ts ih =>
    rcases List.pairwise_cons.mp hs with ⟨hts, hrest⟩
    by_cases hgap : statsInterval ≤ t - last
    · have hlt : last + statsInterval ≤ t := by
        simp only [statsInterval] at hgap ⊢
        omega
      rcases ih t hrest with ⟨hge, hpw⟩
      refine ⟨?_, ?_⟩
      · intro b hb
        rw [throttleTimes, if_pos hgap] at hb
        rcases List.mem_cons.mp hb with hb | hb
        · omega
        · have := hge b hb
          omega
      · rw [throttleTimes, if_pos hgap]
        exact List.pairwise_cons.mpr ⟨fun b hb => by have := hge b hb; omega, hpw⟩
    · rcases ih last hrest with ⟨hge, hpw⟩
      rw [throttleTimes, if_neg hgap]
      exact ⟨hge, hpw⟩

/-- The event-path throttle never emits twice less than 1 s apart. -/
theorem eventStatsTimes_sep (events : List Nat)
    (hs : List.Pairwise (· ≤ ·) events) :
    List.Pairwise (fun x y => x + statsInterval ≤ y)
      (eventStatsTimes events) := by
  cases events with
  | nil => exact List.Pairwise.nil
  | cons t ts =>
    rcases List.pairwise_cons.mp hs with ⟨hts, hrest⟩
    rcases throttleTimes_sep t ts hrest with ⟨hge, hpw⟩
    exact List.pairwise_cons.mpr ⟨fun b hb => hge b hb, hpw⟩

/-- The periodic ticks are 1 s apart. -/
theorem timerTicks_sep (k : Nat) :
    List.Pairwise (fun x y => x + statsInterval ≤ y) (timerTicks k) := by
  refine List.Pairwise.map _ (fun i j hij => ?_)
    (List.pairwise_lt_range k)
  simp only [statsInterval] at *
  omega

/-- A list of times pairwise at least 1 s apart meets any half-open
1-second window at most once. -/
theorem countInWindow_le_one (times : List Nat)
    (hpw : List.Pairwise (fun x y => x + statsInterval ≤ y) times) (a : Nat) :
    countInWindow times a ≤ 1 := by
  induction times with
  | nil => simp [countInWindow]
  | cons t ts ih =>
    rcases List.pairwise_cons.mp hpw with ⟨hts, hrest⟩
    rw [countInWindow, List.countP_cons]
    by_cases hin : a ≤ t ∧ t < a + statsInterval
    · have hzero :
          List.countP (fun t => decide (a ≤ t ∧ t < a + statsInterval)) ts
            = 0 := by
        rw [List.countP_eq_zero]
        intro u hu
        have := hts u hu
        simp only [decide_eq_true_eq]
        omega
      rw [hzero]
      split <;> simp
    · have hdec : decide (a ≤ t ∧ t < a + statsInterval) = false := by
        simpa using hin
      rw [hdec]
      simpa [countInWindow] using ih hrest

/-- Any in-session 1-second window contains a periodic tick: for `1 ≤ a`
with `[a, a+1s)` inside the observed horizon, some tick lands in it. -/
theorem timerTicks_hits_window (k a : Nat) (ha : 1 ≤ a)
    (hk : a + statsInterval - 1 ≤ statsInterval * k) :
    1 ≤ countInWindow (timerTicks k) a := by
  have hone : ∃ t ∈ timerTicks k,
      (fun t => decide (a ≤ t ∧ t < a + statsInterval)) t = true := by
    refine ⟨statsInterval * ((a + statsInterval - 1) / statsInterval), ?_, ?_⟩
    · rw [timerTicks, List.mem_map]
      refine ⟨(a + statsInterval - 1) / statsInterval - 1, ?_, ?_⟩
      · rw [List.mem_range]
        simp only [statsInterval] at *
        omega
      · simp only [statsInterval] at *
        omega
    · simp only [decide_eq_true_eq, statsInterval] at *
      omega
  rcases hone with ⟨t, ht, hpt⟩
  rw [countInWindow]
  exact List.countP_pos_iff.mpr ⟨t, ht, hpt⟩

end BA

/-- **C4 counterexample.** The claim "across any 1-second window at most
one stats broadcast is emitted per room" is false for the code: the
event-path throttle and the periodic timer are independent (the timer
neither checks nor updates `_last_stats_broadcast`).  A danmaku arriving at
999 ms triggers an event-path stats broadcast at 999 ms, and the periodic
tick at 1000 ms broadcasts again: the window `[999 ms, 1999 ms)` gets two
stats broadcasts. -/
theorem C4_counterexample :
    BA.statsBroadcastCount [999] 2 999 = 2 ∧
    ¬ BA.statsBroadcastCount [999] 2 999 ≤ 1 := by
  constructor <;> decide

/-- **C4 amended.** For non-decreasing danmaku arrival times: across any
half-open 1-second window, the event path emits at most one stats
broadcast and the periodic timer at most one, so at most two in total
(rather than the claimed one); and every in-session 1-second window
contains a periodic tick, so at least one stats broadcast is emitted per
1-second window while the room has subscribers (idealised exact timer). -/
theorem C4_throttle_bounds (events : List Nat) (k a : Nat)
    (hs : List.Pairwise (· ≤ ·) events) :
    BA.countInWindow (BA.eventStatsTimes events) a ≤ 1 ∧
    BA.countInWindow (BA.timerTicks k) a ≤ 1 ∧
    BA.statsBroadcastCount events k a ≤ 2 ∧
    (1 ≤ a → a + BA.statsInterval - 1 ≤ BA.statsInterval * k →
      1 ≤ BA.statsBroadcastCount events k a) := by
  have h1 : BA.countInWindow (BA.eventStatsTimes events) a ≤ 1 :=
    BA.countInWindow_le_one _ (BA.eventStatsTimes_sep events hs) a
  have h2 : BA.countInWindow (BA.timerTicks k) a ≤ 1 :=
    BA.countInWindow_le_one _ (BA.timerTicks_sep k) a
  refine ⟨h1, h2, ?_, ?_⟩
  · rw [BA.statsBroadcastCount]
    omega
  · intro ha hk
    have := BA.timerTicks_hits_window k a ha hk
    rw [BA.statsBroadcastCount]
    omega

/-- Witness for the amended C4, at arrival times 0 ms, 500 ms, 1700 ms over
3 ticks, window starting at 1 ms: the hypotheses hold and the window has at
least one and at most two stats broadcasts. -/
theorem C4_witness :
    List.Pairwise (· ≤ ·) ([0, 500, 1700] : List Nat) ∧
    (1 : Nat) ≤ 1 ∧ 1 + BA.statsInterval - 1 ≤ BA.statsInterval * 3 ∧
    BA.statsBroadcastCount [0, 500, 1700] 3 1 ≤ 2 ∧
    1 ≤ BA.statsBroadcastCount [0, 500, 1700] 3 1 := by
  have hs : List.Pairwise (· ≤ ·) ([0, 500, 1700] : List Nat) := by decide
  have h := C4_throttle_bounds [0, 500, 1700] 3 1 hs
  exact ⟨hs, le_refl 1, by decide, h.2.2.1, h.2.2.2 (by decide) (by decide)⟩

namespace BA

/-- Message kind tag on the durable stream (`msg_type` field). -/
inductive MsgType where
  | danmaku
  | gift
deriving DecidableEq, Repr

/-- The JSON value built by `send_danmaku_to_kafka` / `send_gift_to_kafka`
(`kafka_service.py`): one logical schema with optional danmaku-only and
gift-only fields. -/
structure KafkaValue where
  room_id : Nat
  content : Option String
  gift_name : Option String
  gift_count : Option Nat
  user_name : String
  user_id : Nat
  price : Option ℚ
  sentiment_score : Option ℚ
  sentiment_label : Option SentimentLabel
  timestamp : Nat
  msg_type : MsgType
deriving DecidableEq, Repr

/-- One `producer.send(topic, ...)` call as submitted to the client: the
topic, the partition key (the `key=` argument of `KafkaProducer.send`;
`none` when the argument is omitted) and the value. -/
structure ProducerRecord where
  topic : String
  key : Option Nat
  value : KafkaValue
deriving DecidableEq, Repr

/-- `KAFKA_TOPIC_DANMAKU` in `kafka_service.py`. -/
def kafkaTopicDanmaku : String := "live-danmaku-topic"

/-- `send_danmaku_to_kafka`: when the producer is available, submit the
danmaku message to `live-danmaku-topic`.  The call is
`producer.send(KAFKA_TOPIC_DANMAKU, value=message)` — no `key=` argument,
so the record's partition key is `none`; `room_id` travels only inside the
value.  Returns the submitted record, or `none` when Kafka is unavailable
(the source returns `False` and drops the event). -/
def send_danmaku_to_kafka (producerAvailable : Bool) (room_id : Nat)
    (content user_name : String) (user_id : Nat) (sentiment_score : ℚ)
    (sentiment_label : SentimentLabel) (timestamp : Nat) :
    Option ProducerRecord :=
  if producerAvailable then
    some
      { topic := kafkaTopicDanmaku
        key := none
        value :=
          { room_id := room_id
            content := some content
            gift_name := none
            gift_count := none
            user_name := user_name
            user_id := user_id
            price := none
            sentiment_score := some sentiment_score
            sentiment_label := some sentiment_label
            timestamp := timestamp
            msg_type := .danmaku } }
  else none

/-- `send_gift_to_kafka`: as for danmaku — `producer.send(KAFKA_TOPIC_DANMAKU,
value=message)` with no `key=` argument. -/
def send_gift_to_kafka (producerAvailable : Bool) (room_id : Nat)
    (gift_name : String) (gift_count : Nat) (user_name : String)
    (user_id : Nat) (price : ℚ) (timestamp : Nat) :
    Option ProducerRecord :=
  if producerAvailable then
    some
      { topic := kafkaTopicDanmaku
        key := none
        value :=
          { room_id := room_id
            content := none
            gift_name := some gift_name
            gift_count := some gift_count
            user_name := user_name
            user_id := user_id
            price := some price
            sentiment_score := none
            sentiment_label := none
            timestamp := timestamp
            msg_type := .gift } }
  else none

/-- The producer's local submission log: each `send` appends one record, so
records leave the Room Session in call order. -/
def producerSubmit (log : List ProducerRecord) (rec : ProducerRecord) :
    List ProducerRecord :=
  log ++ [rec]

end BA

/-- **C7 counterexample.** The claim "every event is submitted keyed by its
roomId" is false: both send paths call `producer.send` with the value only,
so the submitted record for room 1001 carries partition key `none`, not
`some 1001` (the client's default partitioner, not the room id, chooses the
partition). -/
theorem C7_counterexample :
    (BA.send_danmaku_to_kafka true 1001 "hi" "u" 1 (1/2) .neutral 0).map
        BA.ProducerRecord.key = some none ∧
    some (none : Option Nat) ≠ some (some 1001) ∧
    (BA.send_gift_to_kafka true 1001 "rose" 1 "u" 1 (1/2) 0).map
        BA.ProducerRecord.key = some none := by
  refine ⟨rfl, by simp, rfl⟩

/-- **C7 amended.** Every event a Room Session publishes (danmaku and gift
alike) is submitted to the single topic `live-danmaku-topic` with *no*
partition key — the roomId is only a field of the message value — and each
`send` appends to the producer's submission log, so events of one room are
submitted in local processing order but with no producer-side per-room
partition assignment. -/
theorem C7_unkeyed_single_topic (room_id : Nat) (content user_name gift_name : String)
    (user_id gift_count : Nat) (score price : ℚ) (label : BA.SentimentLabel)
    (timestamp : Nat) (log : List BA.ProducerRecord) (rec : BA.ProducerRecord) :
    (BA.send_danmaku_to_kafka true room_id content user_name user_id
        score label timestamp).map BA.ProducerRecord.key = some none ∧
    (BA.send_danmaku_to_kafka true room_id content user_name user_id
        score label timestamp).map (fun r => r.topic) =
      some BA.kafkaTopicDanmaku ∧
    (BA.send_danmaku_to_kafka true room_id content user_name user_id
        score label timestamp).map (fun r => r.value.room_id) = some room_id ∧
    (BA.send_gift_to_kafka true room_id gift_name gift_count user_name
        user_id price timestamp).map BA.ProducerRecord.key = some none ∧
    (BA.send_gift_to_kafka true room_id gift_name gift_count user_name
        user_id price timestamp).map (fun r => r.topic) =
      some BA.kafkaTopicDanmaku ∧
    (BA.send_gift_to_kafka true room_id gift_name gift_count user_name
        user_id price timestamp).map (fun r => r.value.room_id) = some room_id ∧
    BA.producerSubmit log rec = log ++ [rec] ∧
    BA.send_danmaku_to_kafka false room_id content user_name user_id
        score label timestamp = none :=
  ⟨rfl, rfl, rfl, rfl, rfl, rfl, rfl, rfl⟩

namespace BA

/-- One row of the parsed `live-danmaku-topic` stream as consumed by
`write_to_redis` (`spark_streaming.py`, `live_danmaku_schema`).  The
`timestamp` (an ISO string in the source) is event time in seconds. -/
structure Row where
  room_id : Nat
  content : String
  user_name : String
  user_id : Nat
  sentiment_score : ℚ
  sentiment_label : SentimentLabel
  timestamp : Nat
deriving DecidableEq, Repr

/-- The rows of a micro-batch that belong to one room — the room's group in
the `write_to_redis` grouping loop, in row order. -/
def rowsForRoom (batch : List Row) (room : Nat) : List Row :=
  batch.filter (fun r => decide (r.room_id = room))

/-- `room_data[room]["total_count"]` at the end of the grouping loop. -/
def batchTotal (batch : List Row) (room : Nat) : Nat :=
  (rowsForRoom batch room).length

/-- `room_data[room]["sentiment_sum"]` at the end of the grouping loop. -/
def batchSum (batch : List Row) (room : Nat) : ℚ :=
  ((rowsForRoom batch room).map Row.sentiment_score).sum

/-- `room_data[room]["sentiment_dist"][label]` at the end of the grouping
loop. -/
def batchDist (batch : List Row) (room : Nat) (label : SentimentLabel) : Nat :=
  ((rowsForRoom batch room).filter
    (fun r => decide (r.sentiment_label = label))).length

/-- The per-room stats JSON stored at `live:stats:{room_id}` by
`write_to_redis`.  The wall-clock `start_time` field is omitted (module
comment). -/
structure StatsRec where
  total_danmaku : Nat
  sentiment_sum : ℚ
  dist_positive : Nat
  dist_neutral : Nat
  dist_negative : Nat
  avg_sentiment : ℚ
deriving DecidableEq, Repr

/-- The stats update of `write_to_redis` for one room: read the existing
stats, *add* the batch's count, sentiment sum and label counts (or start
from the batch's values when the key is absent), then recompute
`avg_sentiment = round(sentiment_sum / total_danmaku, 3)` (defaulting to
`0.5` for an empty total). -/
def mergeStats (old : Option StatsRec) (t : Nat) (s : ℚ)
    (p ne ng : Nat) : StatsRec :=
  let total := match old with | some st => st.total_danmaku + t | none => t
  let sum := match old with | some st => st.sentiment_sum + s | none => s
  let pos := match old with | some st => st.dist_positive + p | none => p
  let neu := match old with | some st => st.dist_neutral + ne | none => ne
  let neg := match old with | some st => st.dist_negative + ng | none => ng
  { total_danmaku := total
    sentiment_sum := sum
    dist_positive := pos
    dist_neutral := neu
    dist_negative := neg
    avg_sentiment :=
      if 0 < total then round3 (sum / (total : ℚ)) else 1/2 }

/-- The shared fast store as touched by the live pipeline:
`live:danmaku:{room}` (recent raw danmaku, newest first),
`live:stats:{room}` (current per-room stats JSON) and
`live:stats:{room}:history` (the history list read by
`get_room_stats_history`).  Key expiries carry no claim content and are
omitted. -/
structure RedisStore where
  danmakuList : Nat → List Row
  statsRec : Nat → Option StatsRec
  historyList : Nat → List StatsRec

/-- A store with no keys. -/
def emptyStore : RedisStore :=
  { danmakuList := fun _ => []
    statsRec := fun _ => none
    historyList := fun _ => [] }

/-- `write_to_redis(batch_df, batch_id)`: on an empty batch return
immediately; otherwise group the rows by `room_id` and, for each room in
the batch, (1) `lpush` its danmaku onto `live:danmaku:{room}` and `ltrim`
to the newest 1000, and (2) store the *accumulated* stats under
`live:stats:{room}` via `mergeStats`.  No other key is written — in
particular `live:stats:{room}:history` is never touched. -/
def write_to_redis (batch : List Row) (store : RedisStore) : RedisStore :=
  if batch.isEmpty then store
  else
    { danmakuList := fun room =>
        if room ∈ batch.map Row.room_id then
          ((rowsForRoom batch room).reverse ++ store.danmakuList room).take 1000
        else store.danmakuList room
      statsRec := fun room =>
        if room ∈ batch.map Row.room_id then
          some (mergeStats (store.statsRec room) (batchTotal batch room)
            (batchSum batch room) (batchDist batch room .positive)
            (batchDist batch room .neutral) (batchDist batch room .negative))
        else store.statsRec room
      historyList := store.historyList }

/-- `redis_service.get_room_stats_history(room_id, limit)`: when the Redis
client is available, `lrange("live:stats:{room}:history", 0, limit-1)` —
the first `limit` entries of the shared-store history list; otherwise
(client unavailable, or any exception) the empty list.  It reads nothing
else: no in-memory fallback. -/
def get_room_stats_history (redisAvailable : Bool) (store : RedisStore)
    (room limit : Nat) : List StatsRec :=
  if redisAvailable then (store.historyList room).take limit else []

/-- Formalisation of the CLAIMED aggregation geometry, written from the
spec's words for comparison with `write_to_redis` (refinement check): the
start of the fixed 5-second event-time window containing second `t`. -/
def claimedWindowStart (t : Nat) : Nat := 5 * (t / 5)

/-- Formalisation of the CLAIMED per-(room, window) event count, from the
spec's words: the number of the batch's events of `room` whose event time
falls in the 5-second window starting at `wstart`. -/
def claimedWindowCount (batch : List Row) (room wstart : Nat) : Nat :=
  (batch.filter (fun r =>
    decide (r.room_id = room ∧ claimedWindowStart r.timestamp = wstart))).length

/-- A single-danmaku micro-batch for room 1: score 0.5, label neutral,
event time 0. -/
def demoBatch : List Row :=
  [{ room_id := 1, content := "a", user_name := "u", user_id := 1,
     sentiment_score := 1/2, sentiment_label := .neutral, timestamp := 0 }]

/-- A micro-batch whose two danmaku for room 1 fall in different 5-second
event-time windows (seconds 0 and 10). -/
def splitWindowBatch : List Row :=
  [{ room_id := 1, content := "a", user_name := "u", user_id := 1,
     sentiment_score := 1/2, sentiment_label := .neutral, timestamp := 0 },
   { room_id := 1, content := "b", user_name := "u", user_id := 1,
     sentiment_score := 1/2, sentiment_label := .neutral, timestamp := 10 }]

/-- The spec's §8 example batch: room 1001 receives three danmaku scored
0.8, 0.3 and 0.5 (labelled with the §3 thresholds) in one window. -/
def exampleBatch : List Row :=
  [{ room_id := 1001, content := "d1", user_name := "u1", user_id := 1,
     sentiment_score := 4/5, sentiment_label := .positive, timestamp := 0 },
   { room_id := 1001, content := "d2", user_name := "u2", user_id := 2,
     sentiment_score := 3/10, sentiment_label := .negative, timestamp := 1 },
   { room_id := 1001, content := "d3", user_name := "u3", user_id := 3,
     sentiment_score := 1/2, sentiment_label := .neutral, timestamp := 2 }]

/-- Evaluate `round3` by bracketing the scaled value between consecutive
integers. -/
theorem round3_eq (q : ℚ) (n : ℤ) (h1 : (n : ℚ) ≤ q * 1000 + 1/2)
    (h2 : q * 1000 + 1/2 < n + 1) : round3 q = (n : ℚ) / 1000 := by
  rw [round3, Int.floor_eq_iff.mpr ⟨h1, h2⟩]

/-- A room that occurs in the batch contributes at least one row. -/
theorem batchTotal_pos (batch : List Row) (room : Nat)
    (hmem : room ∈ batch.map Row.room_id) : 0 < batchTotal batch room := by
  rcases List.mem_map.mp hmem with ⟨r, hr, hrid⟩
  refine List.length_pos.mpr ?_
  intro h0
  have : r ∈ rowsForRoom batch room :=
    List.mem_filter.mpr ⟨hr, by simp [hrid]⟩
  rw [h0] at this
  cases this

end BA

/-- **C1 counterexample.** The claim "the store write is an overwrite (not
an increment), so the batch-processing function is idempotent on the store
state" is false: `write_to_redis` reads the existing `live:stats:{room}`
value and *adds* the batch's counts to it.  Processing a one-danmaku batch
for room 1 once leaves `total_danmaku = 1`; replaying the same batch leaves
`total_danmaku = 2`. -/
theorem C1_counterexample :
    ((BA.write_to_redis BA.demoBatch BA.emptyStore).statsRec 1).map
        BA.StatsRec.total_danmaku = some 1 ∧
    ((BA.write_to_redis BA.demoBatch
        (BA.write_to_redis BA.demoBatch BA.emptyStore)).statsRec 1).map
        BA.StatsRec.total_danmaku = some 2 ∧
    (some 2 : Option Nat) ≠ some 1 :=
  ⟨rfl, rfl, by simp⟩

/-- **C1 amended.** The store write of the Stream Aggregator *accumulates*:
for every room present in the batch, processing the batch adds the batch's
`total_danmaku` and per-label counts to the stored record, so replaying the
same batch on a previously-absent room doubles `totalDanmaku` and all label
counts — the write is not idempotent — while `avgSentiment` alone is
unchanged by the replay (the doubled sum over the doubled count). -/
theorem C1_store_write_accumulates (store : BA.RedisStore)
    (batch : List BA.Row) (room : Nat)
    (hmem : room ∈ batch.map BA.Row.room_id)
    (hfresh : store.statsRec room = none) :
    ((BA.write_to_redis batch store).statsRec room).map
        BA.StatsRec.total_danmaku = some (BA.batchTotal batch room) ∧
    ((BA.write_to_redis batch (BA.write_to_redis batch store)).statsRec
        room).map BA.StatsRec.total_danmaku
      = some (2 * BA.batchTotal batch room) ∧
    ((BA.write_to_redis batch (BA.write_to_redis batch store)).statsRec
        room).map BA.StatsRec.dist_positive
      = some (2 * BA.batchDist batch room .positive) ∧
    ((BA.write_to_redis batch (BA.write_to_redis batch store)).statsRec
        room).map BA.StatsRec.dist_neutral
      = some (2 * BA.batchDist batch room .neutral) ∧
    ((BA.write_to_redis batch (BA.write_to_redis batch store)).statsRec
        room).map BA.StatsRec.dist_negative
      = some (2 * BA.batchDist batch room .negative) ∧
    ((BA.write_to_redis batch (BA.write_to_redis batch store)).statsRec
        room).map BA.StatsRec.avg_sentiment
      = ((BA.write_to_redis batch store).statsRec room).map
          BA.StatsRec.avg_sentiment := by
  have hne : batch.isEmpty = false := by
    cases batch with
    | nil => simp at hmem
    | cons r rs => rfl
  have ht : 0 < BA.batchTotal batch room := BA.batchTotal_pos batch room hmem
  have hex : ∃ x ∈ batch, x.room_id = room := by
    simpa using hmem
  have honce : (BA.write_to_redis batch store).statsRec room
      = some (BA.mergeStats none (BA.batchTotal batch room)
          (BA.batchSum batch room) (BA.batchDist batch room .positive)
          (BA.batchDist batch room .neutral)
          (BA.batchDist batch room .negative)) := by
    simp [BA.write_to_redis, hne, hex, hfresh]
  have htwice :
      (BA.write_to_redis batch (BA.write_to_redis batch store)).statsRec room
      = some (BA.mergeStats
          (some (BA.mergeStats none (BA.batchTotal batch room)
            (BA.batchSum batch room) (BA.batchDist batch room .positive)
            (BA.batchDist batch room .neutral)
            (BA.batchDist batch room .negative)))
          (BA.batchTotal batch room) (BA.batchSum batch room)
          (BA.batchDist batch room .positive)
          (BA.batchDist batch room .neutral)
          (BA.batchDist batch room .negative)) := by
    simp [BA.write_to_redis, hne, hex, hfresh]
  rw [honce, htwice]
  simp only [Option.map_some']
  have htQ : ((BA.batchTotal batch room : Nat) : ℚ) ≠ 0 := by
    rw [Nat.cast_ne_zero]
    omega
  refine ⟨by simp [BA.mergeStats], by simp [BA.mergeStats, two_mul],
    by simp [BA.mergeStats, two_mul], by simp [BA.mergeStats, two_mul],
    by simp [BA.mergeStats, two_mul], ?_⟩
  simp only [BA.mergeStats]
  congr 1
  rw [if_pos ht, if_pos (by omega : 0 < BA.batchTotal batch room
    + BA.batchTotal batch room)]
  congr 1
  have hcast :
      ((BA.batchTotal batch room + BA.batchTotal batch room : Nat) : ℚ)
        = 2 * (BA.batchTotal batch room : ℚ) := by
    push_cast
    ring
  rw [hcast, show BA.batchSum batch room + BA.batchSum batch room
      = 2 * BA.batchSum batch room from by ring]
  rw [mul_div_mul_left _ _ (two_ne_zero)]

/-- Witness for the amended C1 at the one-danmaku batch and the empty
store. -/
theorem C1_witness :
    (1 : Nat) ∈ BA.demoBatch.map BA.Row.room_id ∧
    BA.emptyStore.statsRec 1 = none ∧
    ((BA.write_to_redis BA.demoBatch
        (BA.write_to_redis BA.demoBatch BA.emptyStore)).statsRec 1).map
        BA.StatsRec.total_danmaku = some (2 * BA.batchTotal BA.demoBatch 1) := by
  refine ⟨by decide, rfl, ?_⟩
  exact (C1_store_write_accumulates BA.emptyStore BA.demoBatch 1
    (by decide) rfl).2.1

namespace BA

/-- Rewrite every row's event timestamp (leaving room, score and label
untouched) — used to state that `write_to_redis` ignores event time. -/
def retime (f : Row → Nat) (r : Row) : Row := { r with timestamp := f r }

theorem rowsForRoom_retime (f : Row → Nat) (batch : List Row) (room : Nat) :
    rowsForRoom (batch.map (retime f)) room
      = (rowsForRoom batch room).map (retime f) := by
  rw [rowsForRoom, List.filter_map]
  rfl

theorem roomIds_retime (f : Row → Nat) (batch : List Row) :
    (batch.map (retime f)).map Row.room_id = batch.map Row.room_id := by
  rw [List.map_map]
  rfl

theorem batchTotal_retime (f : Row → Nat) (batch : List Row) (room : Nat) :
    batchTotal (batch.map (retime f)) room = batchTotal batch room := by
  rw [batchTotal, rowsForRoom_retime, List.length_map]
  rfl

theorem batchSum_retime (f : Row → Nat) (batch : List Row) (room : Nat) :
    batchSum (batch.map (retime f)) room = batchSum batch room := by
  rw [batchSum, rowsForRoom_retime, List.map_map]
  rfl

theorem batchDist_retime (f : Row → Nat) (batch : List Row) (room : Nat)
    (label : SentimentLabel) :
    batchDist (batch.map (retime f)) room label = batchDist batch room label := by
  rw [batchDist, rowsForRoom_retime, List.filter_map, List.length_map]
  rfl

/-- The `live:stats:{room}` key after a non-empty batch, unfolded. -/
theorem write_to_redis_statsRec_eq (batch : List Row) (store : RedisStore)
    (room : Nat) (hne : batch.isEmpty = false) :
    (write_to_redis batch store).statsRec room
      = if room ∈ batch.map Row.room_id then
          some (mergeStats (store.statsRec room) (batchTotal batch room)
            (batchSum batch room) (batchDist batch room .positive)
            (batchDist batch room .neutral) (batchDist batch room .negative))
        else store.statsRec room := by
  rw [write_to_redis, if_neg (by simp [hne])]

/-- `write_to_redis` does no event-time windowing: rewriting every row's
timestamp changes nothing about the stats it stores. -/
theorem write_to_redis_ignores_time (f : Row → Nat) (batch : List Row)
    (store : RedisStore) :
    (write_to_redis (batch.map (retime f)) store).statsRec
      = (write_to_redis batch store).statsRec := by
  cases batch with
  | nil => rfl
  | cons r rs =>
    funext room
    have h1 : ((r :: rs).map (retime f)).isEmpty = false := rfl
    have h2 : (r :: rs).isEmpty = false := rfl
    rw [write_to_redis_statsRec_eq _ _ _ h1, write_to_redis_statsRec_eq _ _ _ h2,
      roomIds_retime, batchTotal_retime, batchSum_retime, batchDist_retime,
      batchDist_retime, batchDist_retime]

end BA

/-- **C2 counterexample.** The claim that the Stream Aggregator "groups
live danmaku events into fixed 5-second event-time windows ... and
produces one aggregate record per (roomId, window)" is false: for a batch
containing two room-1 danmaku whose event times (seconds 0 and 10) lie in
different 5-second windows, the code stores a *single* room-1 record with
`total_danmaku = 2`, whereas the claimed per-(room, window) aggregates each
count 1 event. -/
theorem C2_counterexample :
    ((BA.write_to_redis BA.splitWindowBatch BA.emptyStore).statsRec 1).map
        BA.StatsRec.total_danmaku = some 2 ∧
    BA.claimedWindowCount BA.splitWindowBatch 1 0 = 1 ∧
    BA.claimedWindowCount BA.splitWindowBatch 1 10 = 1 ∧
    BA.claimedWindowStart 0 ≠ BA.claimedWindowStart 10 ∧
    (2 : Nat) ≠ 1 :=
  ⟨rfl, by decide, by decide, by decide, by decide⟩

/-- **C2 amended.** The Stream Aggregator does no event-time windowing, no
watermark and no late-event dropping: each micro-batch is grouped by
`room_id` only — rewriting all event timestamps changes nothing in the
stored stats — and merged into one cumulative record per room.  The
numbers of the spec's example still come out: a fresh room receiving
exactly 3 danmaku scored {0.8, 0.3, 0.5} (labelled positive / negative /
neutral by the §3 thresholds) in one batch yields the stored record
`{total_danmaku: 3, positive: 1, neutral: 1, negative: 1,
avg_sentiment: 0.533}`. -/
theorem C2_no_windowing_and_example :
    (∀ (f : BA.Row → Nat) (batch : List BA.Row) (store : BA.RedisStore),
      (BA.write_to_redis (batch.map (BA.retime f)) store).statsRec
        = (BA.write_to_redis batch store).statsRec) ∧
    BA.labelOf (4/5) = .positive ∧
    BA.labelOf (3/10) = .negative ∧
    BA.labelOf (1/2) = .neutral ∧
    ((BA.write_to_redis BA.exampleBatch BA.emptyStore).statsRec 1001).map
        BA.StatsRec.total_danmaku = some 3 ∧
    ((BA.write_to_redis BA.exampleBatch BA.emptyStore).statsRec 1001).map
        BA.StatsRec.dist_positive = some 1 ∧
    ((BA.write_to_redis BA.exampleBatch BA.emptyStore).statsRec 1001).map
        BA.StatsRec.dist_neutral = some 1 ∧
    ((BA.write_to_redis BA.exampleBatch BA.emptyStore).statsRec 1001).map
        BA.StatsRec.dist_negative = some 1 ∧
    ((BA.write_to_redis BA.exampleBatch BA.emptyStore).statsRec 1001).map
        BA.StatsRec.avg_sentiment = some (533/1000) := by
  refine ⟨BA.write_to_redis_ignores_time, ?_, ?_, ?_, rfl, rfl, rfl, rfl, ?_⟩
  · rw [BA.labelOf, if_pos (by norm_num : (3:ℚ)/5 ≤ 4/5)]
  · rw [BA.labelOf, if_neg (by norm_num : ¬ (3:ℚ)/5 ≤ 3/10),
      if_pos (by norm_num : (3:ℚ)/10 ≤ 2/5)]
  · rw [BA.labelOf, if_neg (by norm_num : ¬ (3:ℚ)/5 ≤ 1/2),
      if_neg (by norm_num : ¬ (1:ℚ)/2 ≤ 2/5)]
  · have havg : ((BA.write_to_redis BA.exampleBatch BA.emptyStore).statsRec
        1001).map BA.StatsRec.avg_sentiment
        = some (BA.round3 ((4/5 + (3/10 + (1/2 + 0))) / ((3:Nat) : ℚ))) := rfl
    have h1 : ((4:ℚ)/5 + (3/10 + (1/2 + 0))) / ((3:Nat) : ℚ) = 8/15 := by
      norm_num
    rw [havg, h1, BA.round3_eq (8/15) 533 (by norm_num) (by norm_num)]
    norm_num

/-- **C8 counterexample.** The claim that the Stream Aggregator appends the
room's aggregate record to the room's history list is false: after
processing a non-empty batch for room 1 (the stats key is written, as the
second conjunct shows), `live:stats:1:history` is still empty —
`write_to_redis` never touches the history key. -/
theorem C8_counterexample :
    (BA.write_to_redis BA.demoBatch BA.emptyStore).historyList 1 = [] ∧
    ((BA.write_to_redis BA.demoBatch BA.emptyStore).historyList 1).length = 0 ∧
    ((BA.write_to_redis BA.demoBatch BA.emptyStore).statsRec 1).isSome = true :=
  ⟨rfl, rfl, rfl⟩

/-- **C8 amended.** `write_to_redis` never writes any room's history list
(it pushes the raw danmaku onto a separate `live:danmaku:{room}` list,
trimmed to 1000, and overwrites no history key), and
`get_room_stats_history` reads only the shared store: with the store
unavailable it returns `[]` (no in-memory fallback), and when available it
returns exactly the first `limit` entries of the shared-store history list
for that room. -/
theorem C8_history_never_written_store_only
    (batch : List BA.Row) (store : BA.RedisStore) (room limit : Nat) :
    (BA.write_to_redis batch store).historyList = store.historyList ∧
    BA.get_room_stats_history false store room limit = [] ∧
    BA.get_room_stats_history true store room limit
      = (store.historyList room).take limit ∧
    (∃ rest, store.historyList room
      = BA.get_room_stats_history true store room limit ++ rest) := by
  refine ⟨?_, rfl, rfl, ?_⟩
  · cases h : batch.isEmpty <;> simp [BA.write_to_redis, h]
  · exact ⟨(store.historyList room).drop limit,
      ((store.historyList room).take_append_drop limit).symm⟩

namespace BA

/-- One entry of the `rooms` list that `get_room_ranking` (`live.py`)
sorts: room id, total danmaku count and average sentiment (only these
fields reach the ranking response). -/
structure RankEntry where
  room_id : Nat
  total_danmaku : Nat
  avg_sentiment : ℚ
deriving DecidableEq, Repr

/-- Insertion step of the stable descending sort that models Python's
`sorted(rooms, key=lambda x: x.get("total_danmaku", 0), reverse=True)`:
walk past entries with a strictly greater key; an entry is placed *before*
every later entry whose key is not greater, so equal-key entries keep
their original relative order. -/
def insertByDanmakuDesc (x : RankEntry) : List RankEntry → List RankEntry
  | [] => [x]
  | y :: ys =>
    if x.total_danmaku < y.total_danmaku then y :: insertByDanmakuDesc x ys
    else x :: y :: ys

/-- The stable sort of the rooms list by total danmaku, descending —
Python's `sorted(..., reverse=True)` semantics. -/
def sortRoomsByDanmakuDesc (rooms : List RankEntry) : List RankEntry :=
  rooms.foldr insertByDanmakuDesc []

/-- `get_room_ranking`: the sorted rooms, enumerated with 1-based ranks. -/
def get_room_ranking (rooms : List RankEntry) : List (Nat × RankEntry) :=
  (sortRoomsByDanmakuDesc rooms).enum.map (fun p => (p.1 + 1, p.2))

theorem mem_insertByDanmakuDesc {z x : RankEntry} {l : List RankEntry}
    (hz : z ∈ insertByDanmakuDesc x l) : z = x ∨ z ∈ l := by
  induction l with
  | nil =>
    rw [insertByDanmakuDesc] at hz
    rcases List.mem_cons.mp hz with hz | hz
    · exact Or.inl hz
    · cases hz
  | cons y ys ih =>
    rw [insertByDanmakuDesc] at hz
    by_cases h : x.total_danmaku < y.total_danmaku
    · rw [if_pos h] at hz
      rcases List.mem_cons.mp hz with hz | hz
      · exact Or.inr (by simp [hz])
      · rcases ih hz with h' | h'
        · exact Or.inl h'
        · exact Or.inr (by simp [h'])
    · rw [if_neg h] at hz
      rcases List.mem_cons.mp hz with hz | hz
      · exact Or.inl hz
      · exact Or.inr hz

theorem insertByDanmakuDesc_sorted (x : RankEntry) (l : List RankEntry)
    (hl : List.Pairwise (fun a b => b.total_danmaku ≤ a.total_danmaku) l) :
    List.Pairwise (fun a b => b.total_danmaku ≤ a.total_danmaku)
      (insertByDanmakuDesc x l) := by
  induction l with
  | nil => simp [insertByDanmakuDesc]
  | cons y ys ih =>
    rcases List.pairwise_cons.mp hl with ⟨hy, hys⟩
    by_cases h : x.total_danmaku < y.total_danmaku
    · rw [insertByDanmakuDesc, if_pos h]
      refine List.pairwise_cons.mpr ⟨?_, ih hys⟩
      intro z hz
      rcases mem_insertByDanmakuDesc hz with rfl | hz'
      · omega
      · exact hy z hz'
    · rw [insertByDanmakuDesc, if_neg h]
      refine List.pairwise_cons.mpr ⟨?_, hl⟩
      intro z hz
      rcases List.mem_cons.mp hz with rfl | hz'
      · omega
      · have := hy z hz'
        omega

theorem sortRoomsByDanmakuDesc_sorted (rooms : List RankEntry) :
    List.Pairwise (fun a b => b.total_danmaku ≤ a.total_danmaku)
      (sortRoomsByDanmakuDesc rooms) := by
  induction rooms with
  | nil => simp [sortRoomsByDanmakuDesc]
  | cons r rs ih =>
    exact insertByDanmakuDesc_sorted r _ ih

theorem insertByDanmakuDesc_filter_key (x : RankEntry) (l : List RankEntry)
    (k : Nat) :
    (insertByDanmakuDesc x l).filter (fun r => decide (r.total_danmaku = k))
      = if x.total_danmaku = k then
          x :: l.filter (fun r => decide (r.total_danmaku = k))
        else l.filter (fun r => decide (r.total_danmaku = k)) := by
  induction l with
  | nil =>
    by_cases hx : x.total_danmaku = k <;>
      simp [insertByDanmakuDesc, List.filter, hx]
  | cons y ys ih =>
    rw [insertByDanmakuDesc]
    by_cases h : x.total_danmaku < y.total_danmaku
    · rw [if_pos h]
      by_cases hy : y.total_danmaku = k
      · by_cases hx : x.total_danmaku = k
        · omega
        · simp [List.filter_cons, hy, hx, ih]
      · simp [List.filter_cons, hy, ih]
    · rw [if_neg h]
      by_cases hx : x.total_danmaku = k <;>
        simp [List.filter_cons, hx]

/-- Stability of the ranking sort: for every key value, the equal-key
entries appear in the output exactly as they appeared in the input. -/
theorem sortRoomsByDanmakuDesc_stable (rooms : List RankEntry) (k : Nat) :
    (sortRoomsByDanmakuDesc rooms).filter
        (fun r => decide (r.total_danmaku = k))
      = rooms.filter (fun r => decide (r.total_danmaku = k)) := by
  induction rooms with
  | nil => rfl
  | cons r rs ih =>
    rw [sortRoomsByDanmakuDesc, List.foldr_cons]
    rw [show List.foldr insertByDanmakuDesc [] rs
        = sortRoomsByDanmakuDesc rs from rfl]
    rw [insertByDanmakuDesc_filter_key]
    by_cases hr : r.total_danmaku = k
    · rw [if_pos hr, ih, List.filter_cons, if_pos (by simp [hr])]
    · rw [if_neg hr, ih, List.filter_cons, if_neg (by simp [hr])]

end BA

/-- **C9 counterexample.** The claim "ties broken by room id ascending" is
false: `get_room_ranking` sorts only by `total_danmaku` (Python's stable
sort), so two rooms with equal counts keep their input order.  With input
`[room 2, room 1]`, both with 5 danmaku, the ranking lists room 2 before
room 1 — not ascending by id. -/
theorem C9_counterexample :
    (BA.sortRoomsByDanmakuDesc
        [{ room_id := 2, total_danmaku := 5, avg_sentiment := 1/2 },
         { room_id := 1, total_danmaku := 5, avg_sentiment := 1/2 }]).map
        BA.RankEntry.room_id = [2, 1] ∧
    ([2, 1] : List Nat) ≠ [1, 2] ∧
    (BA.get_room_ranking
        [{ room_id := 2, total_danmaku := 5, avg_sentiment := 1/2 },
         { room_id := 1, total_danmaku := 5, avg_sentiment := 1/2 }]).map
        (fun p => (p.1, p.2.room_id)) = [(1, 2), (2, 1)] :=
  ⟨rfl, by simp, rfl⟩

/-- **C9 amended.** `get_room_ranking` sorts the rooms by total danmaku
count descending with Python's *stable* sort: rooms with equal counts keep
the relative order in which they appeared in the input rooms list (which is
not room-id-ascending in general), so the ranking is deterministic only in
the input order, not as a function of the multiset of room stats. -/
theorem C9_ranking_sorted_stable (rooms : List BA.RankEntry) (k : Nat) :
    List.Pairwise (fun a b => b.total_danmaku ≤ a.total_danmaku)
      (BA.sortRoomsByDanmakuDesc rooms) ∧
    (BA.sortRoomsByDanmakuDesc rooms).filter
        (fun r => decide (r.total_danmaku = k))
      = rooms.filter (fun r => decide (r.total_danmaku = k)) ∧
    BA.get_room_ranking rooms
      = (BA.sortRoomsByDanmakuDesc rooms).enum.map (fun p => (p.1 + 1, p.2)) :=
  ⟨BA.sortRoomsByDanmakuDesc_sorted rooms,
    BA.sortRoomsByDanmakuDesc_stable rooms k, rfl⟩
